import Mathlib

/-!
Verification of the Plinko raffle engine (`src/components/PlinkoGame.tsx`).

The engine is shallowly embedded over `ℚ`: JavaScript numbers are idealised
as exact rationals.  `Math.sqrt` has no rational counterpart, so

* collision *tests* `dist < r` are rendered as the equivalent
  `0 < r ∧ dist² < r²` (equivalent because the true square root is
  non-negative and squaring is monotone on non-negatives), and
* collision *resolution*, which divides by the computed distance, receives
  the distance explicitly: either as an argument `d` constrained in the
  theorems by `d ^ 2 = dx ^ 2 + dy ^ 2 ∧ 0 ≤ d`, or through a square-root
  oracle `sqrtO : ℚ → ℚ` threaded through the tick loops (quantified in
  the theorems; in the concrete runs evaluated below the colliding radii
  are zero, so no collision fires and the oracle is never consulted).

Presentation-only state (peg heat, the ball trail, sounds, canvas drawing)
is omitted; the obstacle movement that `drawFrame` performs as a side
effect is kept, because the collision resolver reads the obstacle position.
-/

namespace Plinko

/-- Entry from `App.tsx`: `interface Entry { id: string; name: string }`. -/
structure Entry where
  id : String
  name : String
deriving DecidableEq, Repr

/-- PhysicsSettings from `PhysicsModal.tsx`. -/
structure PhysicsSettings where
  gravity : ℚ
  bounce : ℚ
  friction : ℚ
  ballRadius : ℚ
  pegRadius : ℚ
  pegRandomness : ℚ
  initialVelocity : ℚ
  obstacleWidth : ℚ
  obstacleSpeed : ℚ
deriving DecidableEq, Repr

/-- DEFAULT_PHYSICS from `PhysicsModal.tsx`. -/
def DEFAULT_PHYSICS : PhysicsSettings :=
  { gravity := 0.12
    bounce := 0.85
    friction := 0.998
    ballRadius := 6
    pegRadius := 6
    pegRandomness := 2
    initialVelocity := 3
    obstacleWidth := 60
    obstacleSpeed := 3 }

/-- Ball state (`interface Ball` in `PlinkoGame.tsx`).  `landed` and
`landedSlot` are used by the batch (test-mode) simulator only. -/
structure Ball where
  x : ℚ
  y : ℚ
  vx : ℚ
  vy : ℚ
  id : Option ℕ := none
  landed : Bool := false
  landedSlot : Option ℕ := none
deriving DecidableEq, Repr

/-- Peg position (`interface Peg`); the `heat` field of the source is a
rendering-only side channel (decayed in `drawFrame`, bumped on collision)
and does not influence the physics, so it is not modelled. -/
structure Peg where
  x : ℚ
  y : ℚ
deriving DecidableEq, Repr

/-- CANVAS_HEIGHT is the fixed 800. -/
def CANVAS_HEIGHT : ℚ := 800

/-- Dynamic canvas width: `isWideMode = displayEntries.length > 10`,
`CANVAS_WIDTH = isWideMode ? 1200 : 750`. -/
def canvasWidth (entryCount : ℕ) : ℚ :=
  if entryCount > 10 then 1200 else 750

/-- Number of slots: `Math.min(Math.max(displayEntries.length, 2), 30)`. -/
def numSlots (entryCount : ℕ) : ℕ :=
  min (max entryCount 2) 30

/-- Slot width `CANVAS_WIDTH / numSlots`, as recomputed at the landing
sites of `runAnimation` / `runTestAnimation`. -/
def slotWidthOf (entryCount : ℕ) : ℚ :=
  canvasWidth entryCount / (numSlots entryCount : ℚ)

/-- The slot-index computation shared (textually triplicated) by the
floor-contact branch of `runAnimation`, its stuck-timeout branch, and
`runTestAnimation`:
`Math.max(0, Math.min(Math.floor(ball.x / currentSlotWidth), currentNumSlots - 1))`. -/
def landSlot (entryCount : ℕ) (x : ℚ) : ℤ :=
  max 0 (min ⌊x / slotWidthOf entryCount⌋ ((numSlots entryCount : ℤ) - 1))

/-- Pegs from `generatePegs`: 15 staggered rows, first row at y = 120,
row spacing 38, peg spacing 40; even rows hold
`Math.floor((CANVAS_WIDTH - 60) / pegSpacing) + 1` pegs, odd rows one
fewer, each row centred. -/
def generatePegs (W : ℚ) : List Peg :=
  (List.range 15).flatMap (fun row =>
    let evenRowPegs : ℤ := ⌊(W - 60) / 40⌋ + 1
    let rowPegs : ℤ := if row % 2 = 1 then evenRowPegs - 1 else evenRowPegs
    let totalRowWidth : ℚ := ((rowPegs : ℚ) - 1) * 40
    let startX : ℚ := (W - totalRowWidth) / 2
    (List.range rowPegs.toNat).map (fun col =>
      { x := startX + (col : ℚ) * 40, y := 120 + (row : ℚ) * 38 }))

/-- Squared speed of a ball; speed comparisons between non-negative
quantities are stated on squares to stay inside `ℚ`. -/
def speedSq (b : Ball) : ℚ :=
  b.vx * b.vx + b.vy * b.vy

/-- Wall collisions of the tick loop (`runAnimation` lines 1094-1101 and
the identical block of `runTestAnimation`): clamp at each edge and invert
the horizontal velocity scaled by the restitution. -/
def wallResolve (p : PhysicsSettings) (canvasW : ℚ) (ball : Ball) : Ball :=
  let b1 := if ball.x < p.ballRadius then
      { ball with x := p.ballRadius, vx := ball.vx * (-p.bounce) } else ball
  if b1.x > canvasW - p.ballRadius then
    { b1 with x := canvasW - p.ballRadius, vx := b1.vx * (-p.bounce) } else b1

/-- Resolution of one peg overlap, the body of the loop in
`checkPegCollision`: reflect the velocity about the peg-to-ball normal
scaled by `bounce`, push the ball out along the normal by the penetration
depth, then perturb the horizontal velocity by
`(Math.random() - 0.5) * pegRandomness`.  `d` is the Euclidean distance
`Math.sqrt(dx*dx + dy*dy)` (constrained in the theorems), `r` the random
draw. -/
def pegResolve (p : PhysicsSettings) (peg : Peg) (ball : Ball) (d r : ℚ) : Ball :=
  let dx := ball.x - peg.x
  let dy := ball.y - peg.y
  let minDist := p.ballRadius + p.pegRadius
  let nx := dx / d
  let ny := dy / d
  let dotProduct := ball.vx * nx + ball.vy * ny
  let vx1 := (ball.vx - 2 * dotProduct * nx) * p.bounce
  let vy1 := (ball.vy - 2 * dotProduct * ny) * p.bounce
  let overlap := minDist - d
  { ball with
    x := ball.x + nx * overlap
    y := ball.y + ny * overlap
    vx := vx1 + (r - 0.5) * p.pegRandomness
    vy := vy1 }

/-- One iteration of the `checkPegCollision` loop on the accumulated
(ball, random-draw counter) pair: overlap test and resolution against a
single peg.  The test `distance < minDist` is rendered as
`0 < minDist ∧ dx² + dy² < minDist²`. -/
def pegStep (p : PhysicsSettings) (sqrtO : ℚ → ℚ) (rand : ℕ → ℚ)
    (acc : Ball × ℕ) (peg : Peg) : Ball × ℕ :=
  let b := acc.1
  let dx := b.x - peg.x
  let dy := b.y - peg.y
  let minDist := p.ballRadius + p.pegRadius
  if 0 < minDist ∧ dx ^ 2 + dy ^ 2 < minDist ^ 2 then
    (pegResolve p peg b (sqrtO (dx ^ 2 + dy ^ 2)) (rand acc.2), acc.2 + 1)
  else acc

/-- Full `checkPegCollision` loop: every peg is tested in lattice order
against the (sequentially updated) ball; each resolved overlap consumes
one random draw. -/
def pegsFold (p : PhysicsSettings) (pegs : List Peg) (sqrtO : ℚ → ℚ)
    (rand : ℕ → ℚ) (ball : Ball) (k : ℕ) : Ball × ℕ :=
  pegs.foldl (pegStep p sqrtO rand) (ball, k)

/-- The moving obstacle collision, `checkObstacleCollision`: disabled when
`obstacleWidth ≤ 0`; otherwise an axis-aligned rectangle at
`obstacleY = CANVAS_HEIGHT - 95` of height 8 that bounces the ball off the
face with smaller penetration; a top/bottom bounce also adds
`obstacle.direction * 1.5` to the horizontal velocity. -/
def obstacleResolve (p : PhysicsSettings) (ox dir : ℚ) (ball : Ball) : Ball :=
  let obstacleWidth := p.obstacleWidth
  let obstacleHeight : ℚ := 8
  let obstacleY : ℚ := CANVAS_HEIGHT - 95
  if obstacleWidth ≤ 0 then ball
  else if ball.y + p.ballRadius < obstacleY ∨
      ball.y - p.ballRadius > obstacleY + obstacleHeight then ball
  else if ball.x + p.ballRadius < ox ∨
      ball.x - p.ballRadius > ox + obstacleWidth then ball
  else
    let obstacleCenterX := ox + obstacleWidth / 2
    let obstacleCenterY := obstacleY + obstacleHeight / 2
    let overlapX := p.ballRadius + obstacleWidth / 2 - |ball.x - obstacleCenterX|
    let overlapY := p.ballRadius + obstacleHeight / 2 - |ball.y - obstacleCenterY|
    if overlapY < overlapX then
      { ball with
        y := if ball.y < obstacleCenterY then obstacleY - p.ballRadius
             else obstacleY + obstacleHeight + p.ballRadius
        vy := ball.vy * (-p.bounce)
        vx := ball.vx + dir * 1.5 }
    else
      { ball with
        x := if ball.x < obstacleCenterX then ox - p.ballRadius
             else ox + obstacleWidth + p.ballRadius
        vx := ball.vx * (-p.bounce) }

/-- One divider test of `checkDividerCollision` (divider `i` of the
`0..numSlots` loop): closest-point test against the divider rectangle,
push-out along the normal, and a horizontal or damped vertical bounce; a
degenerate zero-distance contact is pushed out horizontally.  The test
`distance < ballRadius` is rendered as `0 < ballRadius ∧ q < ballRadius²`
and `distance > 0` as `0 < q`, with `q = dx² + dy²`. -/
def dividerResolveAt (p : PhysicsSettings) (sw : ℚ) (sqrtO : ℚ → ℚ)
    (ball : Ball) (i : ℕ) : Ball :=
  let dividerWidth : ℚ := 3
  let slotY : ℚ := CANVAS_HEIGHT - 50
  let dividerX := (i : ℚ) * sw
  let dividerLeft := dividerX
  let dividerRight := dividerX + dividerWidth
  let dividerTop := slotY - 20
  let closestX := max dividerLeft (min ball.x dividerRight)
  let closestY := max dividerTop (min ball.y CANVAS_HEIGHT)
  let dx := ball.x - closestX
  let dy := ball.y - closestY
  let q := dx ^ 2 + dy ^ 2
  if 0 < p.ballRadius ∧ q < p.ballRadius ^ 2 then
    if 0 < q then
      let d := sqrtO q
      let nx := dx / d
      let ny := dy / d
      let b1 := { ball with
        x := closestX + nx * p.ballRadius
        y := closestY + ny * p.ballRadius }
      if |nx| > |ny| then { b1 with vx := b1.vx * (-p.bounce) }
      else { b1 with vy := b1.vy * (-p.bounce * 0.5) }
    else
      let centerX := dividerLeft + dividerWidth / 2
      if ball.x < centerX then
        { ball with x := dividerLeft - p.ballRadius, vx := ball.vx * (-p.bounce) }
      else
        { ball with x := dividerRight + p.ballRadius, vx := ball.vx * (-p.bounce) }
  else ball

/-- Full `checkDividerCollision`: skipped until the ball is near the bins
(`ball.y < slotY - dividerExt - ballRadius`), then every divider
`i ∈ [0, numSlots]` is tested in order. -/
def dividersFold (p : PhysicsSettings) (ns : ℕ) (sw : ℚ) (sqrtO : ℚ → ℚ)
    (ball : Ball) : Ball :=
  if ball.y < CANVAS_HEIGHT - 50 - 20 - p.ballRadius then ball
  else (List.range (ns + 1)).foldl (dividerResolveAt p sw sqrtO) ball

/-- Integration step at the top of each tick: gravity on `vy`, friction on
both components, then position update. -/
def moveBall (p : PhysicsSettings) (ball : Ball) : Ball :=
  let vy1 := (ball.vy + p.gravity) * p.friction
  let vx1 := ball.vx * p.friction
  { ball with vx := vx1, vy := vy1, x := ball.x + vx1, y := ball.y + vy1 }

/-- Obstacle movement performed by `drawFrame` / `drawFrameMulti` each
frame: advance by `obstacleSpeed * direction`, reversing direction at the
margins. -/
def obstacleStep (p : PhysicsSettings) (canvasW ox dir : ℚ) : ℚ × ℚ :=
  let ox1 := ox + p.obstacleSpeed * dir
  if ox1 ≥ canvasW - p.obstacleWidth - 5 then (ox1, -1)
  else if ox1 ≤ 5 then (ox1, 1)
  else (ox1, dir)

end Plinko

namespace Plinko

/-- Status of a single-drop run: `running` while `isAnimatingRef` is true,
`landed` once the completion (or stuck-timeout) branch has fired. -/
inductive SimStatus where
  | running : SimStatus
  | landed : SimStatus
deriving DecidableEq, Repr

/-- State of one single-drop run.  `highlights` is the (ghost) trace of
`onHighlightedSlotChange` calls and `winner` the current `winnerRef`;
`rng` counts the `Math.random()` draws consumed so far, `tickCount`
indexes into the `Date.now()` stream. -/
structure SimState where
  ball : Ball
  obstacleX : ℚ
  obstacleDir : ℚ
  startTime : ℚ
  tickCount : ℕ
  rng : ℕ
  status : SimStatus
  highlights : List ℤ
  winner : Option Entry
deriving DecidableEq, Repr

/-- The landing-site update shared by the floor-contact branch and the
stuck-timeout branch of `runAnimation`: light up the slot
(`onHighlightedSlotChange(slotIndex)`), then set `winnerRef` to
`shuffled[slotIndex]` only when that lookup is defined
(`if (landedEntry) { ... }`). -/
def recordSlot (entries : List Entry) (slot : ℤ) (s : SimState) : SimState :=
  { s with
    highlights := s.highlights ++ [slot]
    winner := match entries.get? slot.toNat with
      | some e => some e
      | none => s.winner }

/-- One iteration of `runAnimation` (single-drop tick): stuck-timeout
check, physics integration, wall / peg / obstacle / divider collisions,
obstacle movement (from the draw call), then the bin-floor check with its
damped bottom bounce or completion. -/
def singleTick (p : PhysicsSettings) (pegs : List Peg) (entries : List Entry)
    (times rand : ℕ → ℚ) (sqrtO : ℚ → ℚ) (s : SimState) : SimState :=
  if s.status = SimStatus.landed then s else
  let n := entries.length
  let canvasW := canvasWidth n
  if times s.tickCount - s.startTime > 20000 then
    -- stuck-ball branch: force a landing from the current x position
    let s1 := recordSlot entries (landSlot n s.ball.x) s
    { s1 with status := SimStatus.landed }
  else
    let b1 := moveBall p s.ball
    let b2 := wallResolve p canvasW b1
    let pr := pegsFold p pegs sqrtO rand b2 s.rng
    let b3 := pr.1
    let b4 := obstacleResolve p s.obstacleX s.obstacleDir b3
    let b5 := dividersFold p (numSlots n) (slotWidthOf n) sqrtO b4
    let od := obstacleStep p canvasW s.obstacleX s.obstacleDir
    let binFloor := CANVAS_HEIGHT - 50 + 30
    if b5.y ≥ binFloor - p.ballRadius then
      let b6 := { b5 with y := binFloor - p.ballRadius }
      let s1 := recordSlot entries (landSlot n b6.x) s
      if 1 < |b6.vy| then
        { s1 with
          ball := { b6 with vy := b6.vy * (-0.3) }
          obstacleX := od.1
          obstacleDir := od.2
          rng := pr.2
          tickCount := s.tickCount + 1 }
      else
        { s1 with
          ball := b6
          obstacleX := od.1
          obstacleDir := od.2
          rng := pr.2
          status := SimStatus.landed }
    else
      { s with
        ball := b5
        obstacleX := od.1
        obstacleDir := od.2
        rng := pr.2
        tickCount := s.tickCount + 1 }

/-- Iterated single-drop loop (`requestAnimationFrame` chain). -/
def runSingle (p : PhysicsSettings) (pegs : List Peg) (entries : List Entry)
    (times rand : ℕ → ℚ) (sqrtO : ℚ → ℚ) : ℕ → SimState → SimState
  | 0, s => s
  | fuel + 1, s => runSingle p pegs entries times rand sqrtO fuel
      (singleTick p pegs entries times rand sqrtO s)

/-- `startAnimation`: refuse silently when fewer than 2 entries
(`if (shuffled.length < 2) return;`); otherwise create the ball at a
random x near the centre (`calculateStartX`), with random initial
horizontal velocity, reset the obstacle to the centre and begin the run.
`t0` is the `Date.now()` recorded in `animationStartTimeRef`. -/
def startSingle (p : PhysicsSettings) (entries : List Entry) (rand : ℕ → ℚ)
    (t0 : ℚ) : Option SimState :=
  if entries.length < 2 then none else
  let canvasW := canvasWidth entries.length
  let centerX := canvasW / 2
  let startX := max 50 (min (canvasW - 50) (centerX + (rand 0 - 0.5) * 100))
  some
    { ball := { x := startX, y := 55, vx := (rand 1 - 0.5) * p.initialVelocity, vy := 0.5 }
      obstacleX := canvasW / 2 - 30
      obstacleDir := 1
      startTime := t0
      tickCount := 0
      rng := 2
      status := SimStatus.running
      highlights := []
      winner := none }

/-- Whole single-drop pipeline: attempt to start, then run `fuel` ticks.
`none` means the drop never started (no ball state, no tick loop). -/
def singleDrop (p : PhysicsSettings) (entries : List Entry)
    (times rand : ℕ → ℚ) (sqrtO : ℚ → ℚ) (t0 : ℚ) (fuel : ℕ) : Option SimState :=
  (startSingle p entries rand t0).map
    (runSingle p (generatePegs (canvasWidth entries.length)) entries times rand sqrtO fuel)

end Plinko

namespace Plinko

/-- Status of a batch (distribution-test) run: `done results` once the
all-landed branch has emitted the per-slot counts. -/
inductive BatchStatus where
  | running : BatchStatus
  | done : List ℕ → BatchStatus
deriving DecidableEq, Repr

/-- State of one batch run. -/
structure BatchState where
  balls : List Ball
  obstacleX : ℚ
  obstacleDir : ℚ
  startTime : ℚ
  tickCount : ℕ
  rng : ℕ
  status : BatchStatus
deriving DecidableEq, Repr

/-- Results accumulation of `runTestAnimation`: start from
`new Array(numSlots).fill(0)` and bump `results[ball.landedSlot]` for each
ball whose `landedSlot` is defined and `< numSlots`. -/
def tally (ns : ℕ) (balls : List Ball) : List ℕ :=
  balls.foldl (fun acc b =>
    match b.landedSlot with
    | some m => if m < ns then acc.set m (acc.getD m 0 + 1) else acc
    | none => acc) (List.replicate ns 0)

/-- Advance of one unlanded ball in `runTestAnimation`: the same physics,
wall, peg (sound suppressed), obstacle and divider steps as the single
drop, then the bottom check with damped bounce or landing into the slot
given by `landSlot`.  Landed balls are skipped unchanged.  Returns the
ball together with the updated random-draw counter. -/
def advanceBall (p : PhysicsSettings) (pegs : List Peg) (entryCount : ℕ)
    (rand : ℕ → ℚ) (sqrtO : ℚ → ℚ) (ox dir : ℚ) (ball : Ball) (k : ℕ) : Ball × ℕ :=
  if ball.landed then (ball, k) else
  let canvasW := canvasWidth entryCount
  let b1 := moveBall p ball
  let b2 := wallResolve p canvasW b1
  let pr := pegsFold p pegs sqrtO rand b2 k
  let b3 := pr.1
  let b4 := obstacleResolve p ox dir b3
  let b5 := dividersFold p (numSlots entryCount) (slotWidthOf entryCount) sqrtO b4
  let binFloor := CANVAS_HEIGHT - 50 + 30
  if b5.y ≥ binFloor - p.ballRadius ∧ b5.landed = false then
    let b6 := { b5 with y := binFloor - p.ballRadius }
    if 1 < |b6.vy| then
      ({ b6 with vy := b6.vy * (-0.3) }, pr.2)
    else
      ({ b6 with landed := true, landedSlot := some (landSlot entryCount b6.x).toNat }, pr.2)
  else (b5, pr.2)

/-- Sequential `balls.forEach` advance, threading the random counter. -/
def advanceBalls (p : PhysicsSettings) (pegs : List Peg) (entryCount : ℕ)
    (rand : ℕ → ℚ) (sqrtO : ℚ → ℚ) (ox dir : ℚ) : List Ball → ℕ → List Ball × ℕ
  | [], k => ([], k)
  | b :: bs, k =>
    let r1 := advanceBall p pegs entryCount rand sqrtO ox dir b k
    let r2 := advanceBalls p pegs entryCount rand sqrtO ox dir bs r1.2
    (r1.1 :: r2.1, r2.2)

/-- Stuck-timeout sweep of `runTestAnimation`: force-land every unlanded
ball in the slot of its current x position. -/
def forceLandAll (entryCount : ℕ) (balls : List Ball) : List Ball :=
  balls.map (fun b =>
    if b.landed then b
    else { b with landed := true, landedSlot := some (landSlot entryCount b.x).toNat })

/-- One iteration of `runTestAnimation`: global stuck-timeout sweep,
per-ball advance, obstacle movement (from `drawFrameMulti`), then the
all-landed check that emits the per-slot counts. -/
def batchTick (p : PhysicsSettings) (pegs : List Peg) (entryCount : ℕ)
    (times rand : ℕ → ℚ) (sqrtO : ℚ → ℚ) (s : BatchState) : BatchState :=
  match s.status with
  | BatchStatus.done _ => s
  | BatchStatus.running =>
    let canvasW := canvasWidth entryCount
    let balls1 := if times s.tickCount - s.startTime > 20000 then
        forceLandAll entryCount s.balls else s.balls
    let br := advanceBalls p pegs entryCount rand sqrtO s.obstacleX s.obstacleDir balls1 s.rng
    let balls2 := br.1
    let od := obstacleStep p canvasW s.obstacleX s.obstacleDir
    if balls2.all (fun b => b.landed) then
      { s with
        balls := balls2
        obstacleX := od.1
        obstacleDir := od.2
        rng := br.2
        status := BatchStatus.done (tally (numSlots entryCount) balls2) }
    else
      { s with
        balls := balls2
        obstacleX := od.1
        obstacleDir := od.2
        rng := br.2
        tickCount := s.tickCount + 1 }

/-- Iterated batch loop. -/
def runBatch (p : PhysicsSettings) (pegs : List Peg) (entryCount : ℕ)
    (times rand : ℕ → ℚ) (sqrtO : ℚ → ℚ) : ℕ → BatchState → BatchState
  | 0, s => s
  | fuel + 1, s => runBatch p pegs entryCount times rand sqrtO fuel
      (batchTick p pegs entryCount times rand sqrtO s)

/-- Swap of two array cells, used by the Fisher-Yates shuffle of
`startTestAnimation` (out-of-range indices leave the list unchanged,
which never happens for the in-range draws of the source). -/
def listSwap (l : List Ball) (i j : ℕ) : List Ball :=
  match l.get? i, l.get? j with
  | some a, some b => (l.set i b).set j a
  | _, _ => l

/-- Fisher-Yates shuffle of `startTestAnimation`
(`for (let i = balls.length - 1; i > 0; i--)` with
`j = Math.floor(Math.random() * (i + 1))`), with `k` the position in the
random stream. -/
def fisherYates (rand : ℕ → ℚ) : ℕ → ℕ → List Ball → List Ball
  | _, 0, l => l
  | k, m + 1, l =>
    let i := m + 1
    let j := (⌊rand k * ((i : ℚ) + 1)⌋).toNat
    fisherYates rand (k + 1) m (listSwap l i j)

/-- Ball `i` of `startTestAnimation`: base x spread uniformly across the
interior 76% of the board (12% margins), jittered, clamped back into the
margins; random initial vx, staggered start height, vy in [0.3, 0.8).
Ball `i` consumes random draws `4*i`, `4*i+1`, `4*i+2`, `4*i+3`, in the
order offset, vx, startY, vy of the source loop. -/
def mkTestBall (p : PhysicsSettings) (canvasW : ℚ) (ballCount : ℕ)
    (rand : ℕ → ℚ) (i : ℕ) : Ball :=
  let marginPercent : ℚ := 0.12
  let minX := canvasW * marginPercent
  let maxX := canvasW * (1 - marginPercent)
  let dropRange := maxX - minX
  let baseX := minX + ((i : ℚ) / (ballCount : ℚ)) * dropRange
  let randomOffset := (rand (4 * i) - 0.5) * (dropRange / (ballCount : ℚ)) * 1.5
  let startX := max minX (min maxX (baseX + randomOffset))
  let vx := (rand (4 * i + 1) - 0.5) * p.initialVelocity
  let startY := 55 - rand (4 * i + 2) * 250
  { x := startX
    y := startY
    vx := vx
    vy := 0.3 + rand (4 * i + 3) * 0.5
    id := some i
    landed := false }

/-- `startTestAnimation`: build `ballCount` balls (note: no minimum-entry
check, unlike `startAnimation`), shuffle their drop order, reset the
obstacle to the centre and begin the batch run.  The vy draw of ball `i`
follows its startY draw, so ball `i` uses draws `4*i .. 4*i+3`; the
shuffle then consumes draws from `4*ballCount` on. -/
def startTest (p : PhysicsSettings) (entryCount : ℕ) (rand : ℕ → ℚ)
    (t0 : ℚ) (ballCount : ℕ) : BatchState :=
  let canvasW := canvasWidth entryCount
  let balls := (List.range ballCount).map (mkTestBall p canvasW ballCount rand)
  let shuffled := fisherYates rand (4 * ballCount) (ballCount - 1) balls
  { balls := shuffled
    obstacleX := canvasW / 2 - 30
    obstacleDir := 1
    startTime := t0
    tickCount := 0
    rng := 4 * ballCount + (ballCount - 1)
    status := BatchStatus.running }

end Plinko

namespace Plinko

/-- Modelled from the spec (refinement comparison for the obstacle-disable
claim): the single-drop tick with the obstacle resolver skipped outright,
all other steps identical to `singleTick`. -/
def singleTickNoObstacle (p : PhysicsSettings) (pegs : List Peg) (entries : List Entry)
    (times rand : ℕ → ℚ) (sqrtO : ℚ → ℚ) (s : SimState) : SimState :=
  if s.status = SimStatus.landed then s else
  let n := entries.length
  let canvasW := canvasWidth n
  if times s.tickCount - s.startTime > 20000 then
    let s1 := recordSlot entries (landSlot n s.ball.x) s
    { s1 with status := SimStatus.landed }
  else
    let b1 := moveBall p s.ball
    let b2 := wallResolve p canvasW b1
    let pr := pegsFold p pegs sqrtO rand b2 s.rng
    let b3 := pr.1
    let b5 := dividersFold p (numSlots n) (slotWidthOf n) sqrtO b3
    let od := obstacleStep p canvasW s.obstacleX s.obstacleDir
    let binFloor := CANVAS_HEIGHT - 50 + 30
    if b5.y ≥ binFloor - p.ballRadius then
      let b6 := { b5 with y := binFloor - p.ballRadius }
      let s1 := recordSlot entries (landSlot n b6.x) s
      if 1 < |b6.vy| then
        { s1 with
          ball := { b6 with vy := b6.vy * (-0.3) }
          obstacleX := od.1
          obstacleDir := od.2
          rng := pr.2
          tickCount := s.tickCount + 1 }
      else
        { s1 with
          ball := b6
          obstacleX := od.1
          obstacleDir := od.2
          rng := pr.2
          status := SimStatus.landed }
    else
      { s with
        ball := b5
        obstacleX := od.1
        obstacleDir := od.2
        rng := pr.2
        tickCount := s.tickCount + 1 }

/-- Iterated no-obstacle loop (spec-side counterpart of `runSingle`). -/
def runSingleNoObstacle (p : PhysicsSettings) (pegs : List Peg) (entries : List Entry)
    (times rand : ℕ → ℚ) (sqrtO : ℚ → ℚ) : ℕ → SimState → SimState
  | 0, s => s
  | fuel + 1, s => runSingleNoObstacle p pegs entries times rand sqrtO fuel
      (singleTickNoObstacle p pegs entries times rand sqrtO s)

/-- The caller-side guard of the distribution-test button in `App.tsx`:
`disabled={isPlaying || entries.length < 2}`. -/
def testButtonDisabled (isPlaying : Bool) (entryCount : ℕ) : Bool :=
  isPlaying || decide (entryCount < 2)

/-- Per-ball slot sanity used by the batch invariant: a landed ball carries
a slot index below `ns`. -/
def BallOK (ns : ℕ) (b : Ball) : Prop :=
  b.landed = true → ∃ m, b.landedSlot = some m ∧ m < ns

/-- Display entries used by the concrete runs below: ten distinct names,
so `numSlots = 10`, `CANVAS_WIDTH = 750` and `slotWidth = 75`. -/
def ceEntries : List Entry :=
  [⟨"1", "A"⟩, ⟨"2", "B"⟩, ⟨"3", "C"⟩, ⟨"4", "D"⟩, ⟨"5", "E"⟩,
   ⟨"6", "F"⟩, ⟨"7", "G"⟩, ⟨"8", "H"⟩, ⟨"9", "I"⟩, ⟨"10", "J"⟩]

/-- Valid physics settings (all finite and non-negative, bounce ≤ 1,
friction ≤ 1) whose zero radii keep every peg/divider overlap test false,
so the concrete runs below stay inside `ℚ` without consulting the
square-root oracle. -/
def ceP : PhysicsSettings :=
  { gravity := 1, bounce := 1, friction := 1, ballRadius := 0, pegRadius := 0,
    pegRandomness := 0, initialVelocity := 100, obstacleWidth := 0, obstacleSpeed := 0 }

/-- Random stream of the concrete single run: draw 0 (start x) is 1/2,
draw 1 (initial vx) is 9/10, giving x = 375, vx = 40. -/
def ceRand : ℕ → ℚ :=
  fun k => if k = 1 then 9 / 10 else 1 / 2

/-- Wall-clock stream of the concrete single run: one millisecond per
frame, far below the 20-second stuck timeout. -/
def ceTimes : ℕ → ℚ :=
  fun k => (k : ℚ)

/-- The concrete single-drop run used to separate the first floor-contact
slot from the reported winner. -/
def ceRun : Option SimState :=
  singleDrop ceP ceEntries ceTimes ceRand (fun _ => 0) 0 100

/-- The state `startAnimation` produces for `ceP`, `ceEntries`, `ceRand`
at time 0 (spelled out so that hypotheses about it can be checked by
evaluation). -/
def ceStart : SimState :=
  { ball := { x := 375, y := 55, vx := 40, vy := 1 / 2 }
    obstacleX := 345
    obstacleDir := 1
    startTime := 0
    tickCount := 0
    rng := 2
    status := SimStatus.running
    highlights := []
    winner := none }

/-- An arbitrary running state used to instantiate landing-update
theorems at concrete inputs. -/
def ceState0 : SimState :=
  { ball := { x := 0, y := 0, vx := 0, vy := 0 }
    obstacleX := 345
    obstacleDir := 1
    startTime := 0
    tickCount := 0
    rng := 2
    status := SimStatus.running
    highlights := []
    winner := none }

/-- Wall-clock stream whose second frame is already past the 20-second
stuck timeout. -/
def ceTimesFast : ℕ → ℚ :=
  fun k => 30000 * (k : ℚ)

end Plinko

namespace Plinko

theorem two_le_numSlots (n : ℕ) : 2 ≤ numSlots n :=
  le_min (le_max_right n 2) (by norm_num)

theorem numSlots_le_of_two_le {n : ℕ} (h : 2 ≤ n) : numSlots n ≤ n := by
  have hm : max n 2 = n := max_eq_left h
  simp only [numSlots, hm]
  exact min_le_left n 30

theorem landSlot_nonneg (n : ℕ) (x : ℚ) : 0 ≤ landSlot n x :=
  le_max_left 0 _

theorem landSlot_le (n : ℕ) (x : ℚ) : landSlot n x ≤ (numSlots n : ℤ) - 1 := by
  have h2 : (2 : ℤ) ≤ (numSlots n : ℤ) := by exact_mod_cast two_le_numSlots n
  exact max_le (by omega) (min_le_right _ _)

theorem landSlot_toNat_lt (n : ℕ) (x : ℚ) : (landSlot n x).toNat < numSlots n := by
  have h1 := landSlot_nonneg n x
  have h2 := landSlot_le n x
  have h3 : (2 : ℤ) ≤ (numSlots n : ℤ) := by exact_mod_cast two_le_numSlots n
  omega

/-- C1: every slot index produced by the landing computation (shared by
the floor-contact branch of `runAnimation`, its stuck-timeout branch, and
`runTestAnimation`) lies in `[0, numSlots - 1]`, where
`numSlots = clamp(displayEntries.length, 2, 30)`. -/
theorem slot_index_in_range (entryCount : ℕ) (x : ℚ) :
    numSlots entryCount = min (max entryCount 2) 30 ∧
    0 ≤ landSlot entryCount x ∧
    landSlot entryCount x ≤ (numSlots entryCount : ℤ) - 1 :=
  ⟨rfl, landSlot_nonneg entryCount x, landSlot_le entryCount x⟩

/-- C2: with at least two display entries the landing lookup
`shuffled[slotIndex]` is always defined and yields one of the first
`numSlots` display entries, which then becomes the reported winner; and
whenever the slot index reaches past the end of the display list, the
lookup is `none` and the landing update leaves the winner unchanged (no
winner is reported) rather than storing an undefined entry. -/
theorem winner_lookup_safe (entries : List Entry) (x : ℚ) (s : SimState) :
    (2 ≤ entries.length →
      ∃ e, entries.get? (landSlot entries.length x).toNat = some e ∧
        e ∈ entries.take (numSlots entries.length) ∧
        (recordSlot entries (landSlot entries.length x) s).winner = some e) ∧
    (entries.length ≤ (landSlot entries.length x).toNat →
      entries.get? (landSlot entries.length x).toNat = none ∧
      (recordSlot entries (landSlot entries.length x) s).winner = s.winner) := by
  constructor
  · intro h2
    have hlt : (landSlot entries.length x).toNat < numSlots entries.length :=
      landSlot_toNat_lt entries.length x
    have hlen : (landSlot entries.length x).toNat < entries.length :=
      lt_of_lt_of_le hlt (numSlots_le_of_two_le h2)
    have he : entries.get? (landSlot entries.length x).toNat =
        some (entries.get ⟨(landSlot entries.length x).toNat, hlen⟩) :=
      List.get?_eq_get hlen
    refine ⟨entries.get ⟨(landSlot entries.length x).toNat, hlen⟩, he, ?_, ?_⟩
    · have htake : (entries.take (numSlots entries.length)).get?
          (landSlot entries.length x).toNat =
          some (entries.get ⟨(landSlot entries.length x).toNat, hlen⟩) := by
        simp only [List.get?_eq_getElem?] at he ⊢
        rw [List.getElem?_take_of_lt hlt]
        exact he
      exact List.get?_mem htake
    · simp only [recordSlot]
      simp only [List.get?_eq_getElem?] at he
      simp [he]
  · intro hge
    have hnone : entries.get? (landSlot entries.length x).toNat = none :=
      List.get?_eq_none.2 hge
    refine ⟨hnone, ?_⟩
    simp only [recordSlot]
    simp only [List.get?_eq_getElem?] at hnone
    simp [hnone]

/-- C7: with fewer than two display entries a single drop never starts:
`startAnimation` returns before any ball state is created, so the whole
pipeline produces no run state, no slot, no winner and no completion
callback; the refusal is a plain early return, not an exception. -/
theorem insufficient_entries_refused (p : PhysicsSettings) (entries : List Entry)
    (times rand : ℕ → ℚ) (sqrtO : ℚ → ℚ) (t0 : ℚ) (fuel : ℕ)
    (h : entries.length < 2) :
    startSingle p entries rand t0 = none ∧
    singleDrop p entries times rand sqrtO t0 fuel = none := by
  have hs : startSingle p entries rand t0 = none := by
    simp [startSingle, h]
  exact ⟨hs, by simp [singleDrop, hs]⟩

end Plinko

namespace Plinko

theorem obstacleResolve_id_of_width_zero {p : PhysicsSettings}
    (h : p.obstacleWidth = 0) (ox dir : ℚ) (ball : Ball) :
    obstacleResolve p ox dir ball = ball := by
  simp [obstacleResolve, h]

/-- C8: an obstacle of width 0 disables obstacle collision entirely: the
resolver returns the ball unchanged, each tick equals the tick with the
obstacle resolver skipped outright, and therefore a whole run (given the
same random draws, times and square-root oracle) produces exactly the
same states. -/
theorem obstacle_width_zero_skips_resolver (p : PhysicsSettings)
    (h : p.obstacleWidth = 0) :
    (∀ ox dir ball, obstacleResolve p ox dir ball = ball) ∧
    (∀ pegs entries times rand sqrtO s,
      singleTick p pegs entries times rand sqrtO s =
        singleTickNoObstacle p pegs entries times rand sqrtO s) ∧
    (∀ pegs entries times rand sqrtO fuel s,
      runSingle p pegs entries times rand sqrtO fuel s =
        runSingleNoObstacle p pegs entries times rand sqrtO fuel s) := by
  have hid : ∀ ox dir ball, obstacleResolve p ox dir ball = ball :=
    fun ox dir ball => obstacleResolve_id_of_width_zero h ox dir ball
  have htick : ∀ pegs entries times rand sqrtO s,
      singleTick p pegs entries times rand sqrtO s =
        singleTickNoObstacle p pegs entries times rand sqrtO s := by
    intro pegs entries times rand sqrtO s
    simp only [singleTick, singleTickNoObstacle, hid]
  refine ⟨hid, htick, ?_⟩
  intro pegs entries times rand sqrtO fuel
  induction fuel with
  | zero => intro s; rfl
  | succ n ih =>
    intro s
    simp only [runSingle, runSingleNoObstacle, htick]
    exact ih _

end Plinko

namespace Plinko

/-- C9: for a ball overlapping a peg (distance `d` below
`ballRadius + pegRadius`), the resolver reflects the velocity about the
peg-to-ball unit normal `n = (dx/d, dy/d)` (a unit vector) scaled by the
restitution `bounce`, translates the ball along `n` by the penetration
depth `minDist - d`, and adds to the horizontal velocity the value
`(r - 1/2) * pegRandomness`, which lies in
`[-pegRandomness/2, pegRandomness/2]` for any draw `r ∈ [0, 1)`. -/
theorem peg_collision_resolution (p : PhysicsSettings) (peg : Peg) (ball : Ball)
    (d r : ℚ) (hd : 0 < d)
    (hq : d ^ 2 = (ball.x - peg.x) ^ 2 + (ball.y - peg.y) ^ 2)
    (_hcol : d < p.ballRadius + p.pegRadius)
    (hr0 : 0 ≤ r) (hr1 : r < 1) (hR : 0 ≤ p.pegRandomness) :
    let nx := (ball.x - peg.x) / d
    let ny := (ball.y - peg.y) / d
    let dotProduct := ball.vx * nx + ball.vy * ny
    let u := (r - 1 / 2) * p.pegRandomness
    nx ^ 2 + ny ^ 2 = 1 ∧
    (pegResolve p peg ball d r).vx = (ball.vx - 2 * dotProduct * nx) * p.bounce + u ∧
    (pegResolve p peg ball d r).vy = (ball.vy - 2 * dotProduct * ny) * p.bounce ∧
    (pegResolve p peg ball d r).x = ball.x + nx * (p.ballRadius + p.pegRadius - d) ∧
    (pegResolve p peg ball d r).y = ball.y + ny * (p.ballRadius + p.pegRadius - d) ∧
    -(p.pegRandomness / 2) ≤ u ∧ u ≤ p.pegRandomness / 2 := by
  intro nx ny dotProduct u
  have hd0 : d ≠ 0 := ne_of_gt hd
  have hunit : nx ^ 2 + ny ^ 2 = 1 := by
    simp only [nx, ny]
    field_simp
    linarith [hq]
  refine ⟨hunit, ?_, ?_, ?_, ?_, ?_, ?_⟩
  · simp only [pegResolve, nx, ny, dotProduct, u]
    norm_num
  · simp only [pegResolve, nx, ny, dotProduct]
  · simp only [pegResolve, nx, ny]
  · simp only [pegResolve, nx, ny]
  · have h1 : -(1 / 2 : ℚ) ≤ r - 1 / 2 := by linarith
    have := mul_le_mul_of_nonneg_right h1 hR
    simp only [u]
    nlinarith
  · have h1 : r - 1 / 2 ≤ 1 / 2 := by linarith
    have := mul_le_mul_of_nonneg_right h1 hR
    simp only [u]
    nlinarith

end Plinko

namespace Plinko

theorem bounce_sq_le_one {p : PhysicsSettings} (hb0 : 0 ≤ p.bounce)
    (hb1 : p.bounce ≤ 1) : p.bounce ^ 2 ≤ 1 := by nlinarith

theorem reflect_scaled_speedSq_le (vx vy nx ny b : ℚ)
    (hunit : nx ^ 2 + ny ^ 2 = 1) (hb0 : 0 ≤ b) (hb1 : b ≤ 1) :
    ((vx - 2 * (vx * nx + vy * ny) * nx) * b) * ((vx - 2 * (vx * nx + vy * ny) * nx) * b) +
      ((vy - 2 * (vx * nx + vy * ny) * ny) * b) * ((vy - 2 * (vx * nx + vy * ny) * ny) * b) ≤
      vx * vx + vy * vy := by
  have hexp : (vx - 2 * (vx * nx + vy * ny) * nx) ^ 2 +
      (vy - 2 * (vx * nx + vy * ny) * ny) ^ 2 =
      vx ^ 2 + vy ^ 2 - 4 * (vx * nx + vy * ny) ^ 2 +
        4 * (vx * nx + vy * ny) ^ 2 * (nx ^ 2 + ny ^ 2) := by ring
  rw [hunit] at hexp
  have h2 : (vx - 2 * (vx * nx + vy * ny) * nx) ^ 2 +
      (vy - 2 * (vx * nx + vy * ny) * ny) ^ 2 = vx ^ 2 + vy ^ 2 := by
    rw [hexp]; ring
  have hb2 : b ^ 2 ≤ 1 := by nlinarith
  nlinarith [h2, sq_nonneg (vx - 2 * (vx * nx + vy * ny) * nx),
    sq_nonneg (vy - 2 * (vx * nx + vy * ny) * ny), sq_nonneg vx, sq_nonneg vy]

/-- C6 (amended): with `0 ≤ bounce ≤ 1`, every collision resolver damps
the speed apart from its explicitly injected terms: the wall and divider
resolvers never increase the squared speed; the peg resolver never
increases it once the random perturbation term is zero (midpoint draw
`r = 1/2`); and the obstacle resolver never increases it once its fixed
`direction * 1.5` horizontal nudge contributes zero (direction factor 0).
The claim as literally stated fails on that obstacle nudge, see the
counterexample. -/
theorem collision_damping (p : PhysicsSettings)
    (hb0 : 0 ≤ p.bounce) (hb1 : p.bounce ≤ 1) :
    (∀ canvasW ball, speedSq (wallResolve p canvasW ball) ≤ speedSq ball) ∧
    (∀ sw sqrtO ball i, speedSq (dividerResolveAt p sw sqrtO ball i) ≤ speedSq ball) ∧
    (∀ peg ball d, d ≠ 0 →
      d ^ 2 = (ball.x - peg.x) ^ 2 + (ball.y - peg.y) ^ 2 →
      speedSq (pegResolve p peg ball d (1 / 2)) ≤ speedSq ball) ∧
    (∀ ox ball, speedSq (obstacleResolve p ox 0 ball) ≤ speedSq ball) := by
  have hbsq := bounce_sq_le_one hb0 hb1
  refine ⟨?_, ?_, ?_, ?_⟩
  · intro canvasW ball
    simp only [wallResolve, speedSq]
    split_ifs <;> simp <;>
      nlinarith [sq_nonneg ball.vx, sq_nonneg ball.vy, sq_nonneg (ball.vx * p.bounce)]
  · intro sw sqrtO ball i
    simp only [dividerResolveAt, speedSq]
    split_ifs <;> simp <;> nlinarith [sq_nonneg ball.vx, sq_nonneg ball.vy]
  · intro peg ball d hd hq
    have hunit : ((ball.x - peg.x) / d) ^ 2 + ((ball.y - peg.y) / d) ^ 2 = 1 := by
      field_simp
      linarith [hq]
    have h0 : ((1 : ℚ) / 2 - 0.5) * p.pegRandomness = 0 := by norm_num
    simp only [pegResolve, speedSq, h0, add_zero]
    exact reflect_scaled_speedSq_le ball.vx ball.vy _ _ p.bounce hunit hb0 hb1
  · intro ox ball
    simp only [obstacleResolve, speedSq]
    split_ifs <;> simp <;> nlinarith [sq_nonneg ball.vx, sq_nonneg ball.vy]

end Plinko

namespace Plinko

/-- C6 counterexample: with the default settings (`bounce = 0.85 ≤ 1`,
`friction = 0.998 ≤ 1`) a slow ball grazing the top of the moving obstacle
leaves the collision strictly faster than it arrived, because the resolver
adds the fixed `direction * 1.5` horizontal nudge: the claim that no
collision ever increases the speed (with only `pegRandomness` excepted) is
false on the obstacle resolver. -/
theorem collision_damping_counterexample :
    DEFAULT_PHYSICS.bounce ≤ 1 ∧ DEFAULT_PHYSICS.friction ≤ 1 ∧
    speedSq { x := 320, y := 700, vx := 0, vy := 0.5 : Ball } <
      speedSq (obstacleResolve DEFAULT_PHYSICS 300 1
        { x := 320, y := 700, vx := 0, vy := 0.5 }) := by
  refine ⟨by norm_num [DEFAULT_PHYSICS], by norm_num [DEFAULT_PHYSICS], ?_⟩
  norm_num [DEFAULT_PHYSICS, obstacleResolve, speedSq, CANVAS_HEIGHT, abs]

end Plinko

namespace Plinko

theorem singleTick_landed (p : PhysicsSettings) (pegs : List Peg)
    (entries : List Entry) (times rand : ℕ → ℚ) (sqrtO : ℚ → ℚ)
    (s : SimState) (h : s.status = SimStatus.landed) :
    singleTick p pegs entries times rand sqrtO s = s := by
  simp [singleTick, h]

theorem singleTick_startTime (p : PhysicsSettings) (pegs : List Peg)
    (entries : List Entry) (times rand : ℕ → ℚ) (sqrtO : ℚ → ℚ)
    (s : SimState) :
    (singleTick p pegs entries times rand sqrtO s).startTime = s.startTime := by
  simp only [singleTick, recordSlot]
  split_ifs <;> rfl

theorem singleTick_progress (p : PhysicsSettings) (pegs : List Peg)
    (entries : List Entry) (times rand : ℕ → ℚ) (sqrtO : ℚ → ℚ)
    (s : SimState) (h : s.status = SimStatus.running) :
    (singleTick p pegs entries times rand sqrtO s).status = SimStatus.landed ∨
      (singleTick p pegs entries times rand sqrtO s).tickCount = s.tickCount + 1 := by
  simp only [singleTick, recordSlot, h]
  split_ifs <;> simp_all

theorem singleTick_stuck (p : PhysicsSettings) (pegs : List Peg)
    (entries : List Entry) (times rand : ℕ → ℚ) (sqrtO : ℚ → ℚ)
    (s : SimState) (h : s.status = SimStatus.running)
    (ht : times s.tickCount - s.startTime > 20000) :
    (singleTick p pegs entries times rand sqrtO s).status = SimStatus.landed ∧
    (singleTick p pegs entries times rand sqrtO s).highlights =
      s.highlights ++ [landSlot entries.length s.ball.x] := by
  simp [singleTick, recordSlot, h, ht]

theorem runSingle_landed (p : PhysicsSettings) (pegs : List Peg)
    (entries : List Entry) (times rand : ℕ → ℚ) (sqrtO : ℚ → ℚ) :
    ∀ (fuel : ℕ) (s : SimState), s.status = SimStatus.landed →
      runSingle p pegs entries times rand sqrtO fuel s = s := by
  intro fuel
  induction fuel with
  | zero => intro s _; rfl
  | succ n ih =>
    intro s h
    simp only [runSingle, singleTick_landed p pegs entries times rand sqrtO s h]
    exact ih s h

theorem runSingle_progress (p : PhysicsSettings) (pegs : List Peg)
    (entries : List Entry) (times rand : ℕ → ℚ) (sqrtO : ℚ → ℚ) :
    ∀ (fuel : ℕ) (s : SimState), s.status = SimStatus.running →
      (runSingle p pegs entries times rand sqrtO fuel s).status = SimStatus.landed ∨
      ((runSingle p pegs entries times rand sqrtO fuel s).status = SimStatus.running ∧
        (runSingle p pegs entries times rand sqrtO fuel s).tickCount = s.tickCount + fuel ∧
        (runSingle p pegs entries times rand sqrtO fuel s).startTime = s.startTime) := by
  intro fuel
  induction fuel with
  | zero => intro s h; exact Or.inr ⟨h, rfl, rfl⟩
  | succ n ih =>
    intro s h
    simp only [runSingle]
    rcases eq_or_ne (singleTick p pegs entries times rand sqrtO s).status
        SimStatus.landed with hl | hr
    · left
      rw [runSingle_landed p pegs entries times rand sqrtO n _ hl]
      exact hl
    · have hrun : (singleTick p pegs entries times rand sqrtO s).status =
          SimStatus.running := by
        cases hst : (singleTick p pegs entries times rand sqrtO s).status
        · rfl
        · exact absurd hst hr
      rcases ih (singleTick p pegs entries times rand sqrtO s) hrun with h1 | ⟨h1, h2, h3⟩
      · exact Or.inl h1
      · rcases singleTick_progress p pegs entries times rand sqrtO s h with hp | hp
        · exact absurd hp hr
        · refine Or.inr ⟨h1, ?_, ?_⟩
          · rw [h2, hp]
            omega
          · rw [h3, singleTick_startTime]

end Plinko

namespace Plinko

theorem startSingle_fields (p : PhysicsSettings) (entries : List Entry)
    (rand : ℕ → ℚ) (t0 : ℚ) (s0 : SimState)
    (h : startSingle p entries rand t0 = some s0) :
    s0.status = SimStatus.running ∧ s0.tickCount = 0 ∧ s0.startTime = t0 ∧
      s0.highlights = [] ∧ s0.winner = none := by
  by_cases hl : entries.length < 2
  · simp [startSingle, hl] at h
  · simp only [startSingle, if_neg hl, Option.some.injEq] at h
    subst h
    exact ⟨rfl, rfl, rfl, rfl, rfl⟩

theorem runSingle_succ (p : PhysicsSettings) (pegs : List Peg)
    (entries : List Entry) (times rand : ℕ → ℚ) (sqrtO : ℚ → ℚ) :
    ∀ (fuel : ℕ) (s : SimState),
      runSingle p pegs entries times rand sqrtO (fuel + 1) s =
        singleTick p pegs entries times rand sqrtO
          (runSingle p pegs entries times rand sqrtO fuel s) := by
  intro fuel
  induction fuel with
  | zero => intro s; rfl
  | succ n ih => intro s; exact ih (singleTick p pegs entries times rand sqrtO s)

/-- C4: a single drop always reaches the `landed` state: as soon as any
tick index `k` sees wall-clock time more than 20000 ms past the recorded
start time, running the drop for `k + 1` ticks has landed (either some
earlier tick landed normally, or tick `k` takes the stuck-timeout branch);
moreover the stuck branch force-lands from any running state, computing
the highlighted slot from the ball's current x position alone (its y
position does not enter `landSlot`). -/
theorem single_drop_terminates (p : PhysicsSettings) (pegs : List Peg)
    (entries : List Entry) (times rand : ℕ → ℚ) (sqrtO : ℚ → ℚ)
    (t0 : ℚ) (k : ℕ) (s0 : SimState)
    (hstart : startSingle p entries rand t0 = some s0)
    (htime : times k - t0 > 20000) :
    (runSingle p pegs entries times rand sqrtO (k + 1) s0).status = SimStatus.landed ∧
    (∀ s : SimState, s.status = SimStatus.running →
      times s.tickCount - s.startTime > 20000 →
      (singleTick p pegs entries times rand sqrtO s).status = SimStatus.landed ∧
      (singleTick p pegs entries times rand sqrtO s).highlights =
        s.highlights ++ [landSlot entries.length s.ball.x]) := by
  obtain ⟨hs, hc, ht, _, _⟩ := startSingle_fields p entries rand t0 s0 hstart
  constructor
  · rw [runSingle_succ]
    rcases runSingle_progress p pegs entries times rand sqrtO k s0 hs with hl | ⟨h1, h2, h3⟩
    · rw [singleTick_landed p pegs entries times rand sqrtO _ hl]
      exact hl
    · have htk : times (runSingle p pegs entries times rand sqrtO k s0).tickCount -
          (runSingle p pegs entries times rand sqrtO k s0).startTime > 20000 := by
        rw [h2, h3, hc, ht]
        simpa using htime
      exact (singleTick_stuck p pegs entries times rand sqrtO _ h1 htk).1
  · intro s hsr htt
    exact singleTick_stuck p pegs entries times rand sqrtO s hsr htt

end Plinko

namespace Plinko

theorem recordSlot_winner_of_two_le (entries : List Entry) (x : ℚ) (s : SimState)
    (h2 : 2 ≤ entries.length) :
    (recordSlot entries (landSlot entries.length x) s).winner =
      entries.get? (landSlot entries.length x).toNat := by
  have hlen : (landSlot entries.length x).toNat < entries.length :=
    lt_of_lt_of_le (landSlot_toNat_lt entries.length x) (numSlots_le_of_two_le h2)
  have he : entries.get? (landSlot entries.length x).toNat =
      some (entries.get ⟨(landSlot entries.length x).toNat, hlen⟩) :=
    List.get?_eq_get hlen
  simp only [recordSlot]
  simp only [List.get?_eq_getElem?] at he ⊢
  simp [he]

theorem singleTick_lastInv (p : PhysicsSettings) (pegs : List Peg)
    (entries : List Entry) (times rand : ℕ → ℚ) (sqrtO : ℚ → ℚ)
    (s : SimState) (h2 : 2 ≤ entries.length)
    (hinv : ∀ l, s.highlights.getLast? = some l →
      s.winner = entries.get? l.toNat) :
    ∀ l, (singleTick p pegs entries times rand sqrtO s).highlights.getLast? = some l →
      (singleTick p pegs entries times rand sqrtO s).winner = entries.get? l.toNat := by
  by_cases hst : s.status = SimStatus.landed
  · rw [singleTick_landed p pegs entries times rand sqrtO s hst]
    exact hinv
  · intro l hl
    simp only [singleTick, if_neg hst] at hl ⊢
    split_ifs at hl ⊢ with hstuck hfloor hbounce
    · -- stuck branch
      simp only [recordSlot, List.getLast?_concat, Option.some.injEq] at hl
      subst hl
      exact recordSlot_winner_of_two_le entries s.ball.x s h2
    · -- floor contact, still bouncing
      simp only [recordSlot, List.getLast?_concat, Option.some.injEq] at hl
      subst hl
      exact recordSlot_winner_of_two_le entries _ s h2
    · -- floor contact, landing
      simp only [recordSlot, List.getLast?_concat, Option.some.injEq] at hl
      subst hl
      exact recordSlot_winner_of_two_le entries _ s h2
    · -- no floor contact
      exact hinv l hl

theorem runSingle_lastInv (p : PhysicsSettings) (pegs : List Peg)
    (entries : List Entry) (times rand : ℕ → ℚ) (sqrtO : ℚ → ℚ)
    (h2 : 2 ≤ entries.length) :
    ∀ (fuel : ℕ) (s : SimState),
      (∀ l, s.highlights.getLast? = some l → s.winner = entries.get? l.toNat) →
      ∀ l, (runSingle p pegs entries times rand sqrtO fuel s).highlights.getLast? = some l →
        (runSingle p pegs entries times rand sqrtO fuel s).winner =
          entries.get? l.toNat := by
  intro fuel
  induction fuel with
  | zero => intro s hinv; exact hinv
  | succ n ih =>
    intro s hinv
    exact ih _ (singleTick_lastInv p pegs entries times rand sqrtO s h2 hinv)

/-- C3 (amended): the slot index is recomputed from the ball's current x
position at every floor contact, not only the first; each contact
overwrites the highlighted slot and the provisional winner, so the winner
a run reports is the display entry of the slot recorded by the most recent
slot computation (the final floor contact, or the stuck-timeout), which
can differ from the first floor-contact slot (see the counterexample). -/
theorem winner_matches_last_highlight (p : PhysicsSettings) (pegs : List Peg)
    (entries : List Entry) (times rand : ℕ → ℚ) (sqrtO : ℚ → ℚ)
    (t0 : ℚ) (fuel : ℕ) (s0 : SimState)
    (h2 : 2 ≤ entries.length)
    (hstart : startSingle p entries rand t0 = some s0) :
    ∀ l, (runSingle p pegs entries times rand sqrtO fuel s0).highlights.getLast? = some l →
      (runSingle p pegs entries times rand sqrtO fuel s0).winner =
        entries.get? l.toNat := by
  obtain ⟨_, _, _, hh, hw⟩ := startSingle_fields p entries rand t0 s0 hstart
  refine runSingle_lastInv p pegs entries times rand sqrtO h2 fuel s0 ?_
  intro l hl
  rw [hh] at hl
  simp at hl

end Plinko

namespace Plinko

attribute [local semireducible] Rat.add Rat.mul Rat.sub Rat.inv Rat.ofScientific in
set_option maxRecDepth 1000000 in
/-- C3 counterexample: in a concrete drop (valid settings, fixed random
draws), the ball first touches the bin floor in slot 4, bounces, and the
slot is recomputed at three further floor contacts (highlight trace
`[4, 3, 0, 0]`); the reported winner is the slot-0 entry `A`, not the
first-contact slot-4 entry `E`.  So the slot index is not computed exactly
once at first floor contact, and the first floor-contact slot does not
determine the winner. -/
theorem first_contact_slot_not_final_counterexample :
    ceRun.map (fun s => (s.status, s.highlights, s.winner)) =
      some (SimStatus.landed, [4, 3, 0, 0], some ⟨"1", "A"⟩) ∧
    ceEntries.get? ((4 : ℤ)).toNat = some ⟨"5", "E"⟩ ∧
    (some (⟨"1", "A"⟩ : Entry) ≠ some (⟨"5", "E"⟩ : Entry)) := by
  refine ⟨by decide, by decide, by decide⟩

end Plinko

namespace Plinko

theorem pegResolve_tags (p : PhysicsSettings) (peg : Peg) (ball : Ball) (d r : ℚ) :
    (pegResolve p peg ball d r).landed = ball.landed ∧
    (pegResolve p peg ball d r).landedSlot = ball.landedSlot :=
  ⟨rfl, rfl⟩

theorem moveBall_tags (p : PhysicsSettings) (ball : Ball) :
    (moveBall p ball).landed = ball.landed ∧
    (moveBall p ball).landedSlot = ball.landedSlot :=
  ⟨rfl, rfl⟩

theorem wallResolve_tags (p : PhysicsSettings) (canvasW : ℚ) (ball : Ball) :
    (wallResolve p canvasW ball).landed = ball.landed ∧
    (wallResolve p canvasW ball).landedSlot = ball.landedSlot := by
  simp only [wallResolve]
  split_ifs <;> exact ⟨rfl, rfl⟩

theorem obstacleResolve_tags (p : PhysicsSettings) (ox dir : ℚ) (ball : Ball) :
    (obstacleResolve p ox dir ball).landed = ball.landed ∧
    (obstacleResolve p ox dir ball).landedSlot = ball.landedSlot := by
  simp only [obstacleResolve]
  split_ifs <;> exact ⟨rfl, rfl⟩

theorem dividerResolveAt_tags (p : PhysicsSettings) (sw : ℚ) (sqrtO : ℚ → ℚ)
    (ball : Ball) (i : ℕ) :
    (dividerResolveAt p sw sqrtO ball i).landed = ball.landed ∧
    (dividerResolveAt p sw sqrtO ball i).landedSlot = ball.landedSlot := by
  simp only [dividerResolveAt]
  split_ifs <;> exact ⟨rfl, rfl⟩

theorem pegStep_tags (p : PhysicsSettings) (sqrtO : ℚ → ℚ) (rand : ℕ → ℚ)
    (acc : Ball × ℕ) (peg : Peg) :
    ((pegStep p sqrtO rand acc peg).1.landed = acc.1.landed ∧
     (pegStep p sqrtO rand acc peg).1.landedSlot = acc.1.landedSlot) := by
  simp only [pegStep]
  split_ifs <;> exact ⟨rfl, rfl⟩

theorem pegsFold_tags (p : PhysicsSettings) (sqrtO : ℚ → ℚ) (rand : ℕ → ℚ) :
    ∀ (pegs : List Peg) (acc : Ball × ℕ),
      ((pegs.foldl (pegStep p sqrtO rand) acc).1.landed = acc.1.landed ∧
       (pegs.foldl (pegStep p sqrtO rand) acc).1.landedSlot = acc.1.landedSlot) := by
  intro pegs
  induction pegs with
  | nil => intro acc; exact ⟨rfl, rfl⟩
  | cons peg rest ih =>
    intro acc
    rw [List.foldl_cons]
    obtain ⟨h1, h2⟩ := ih (pegStep p sqrtO rand acc peg)
    obtain ⟨h3, h4⟩ := pegStep_tags p sqrtO rand acc peg
    exact ⟨h1.trans h3, h2.trans h4⟩

theorem dividersFoldLoop_tags (p : PhysicsSettings) (sw : ℚ) (sqrtO : ℚ → ℚ) :
    ∀ (l : List ℕ) (ball : Ball),
      ((l.foldl (dividerResolveAt p sw sqrtO) ball).landed = ball.landed ∧
       (l.foldl (dividerResolveAt p sw sqrtO) ball).landedSlot = ball.landedSlot) := by
  intro l
  induction l with
  | nil => intro ball; exact ⟨rfl, rfl⟩
  | cons i rest ih =>
    intro ball
    rw [List.foldl_cons]
    obtain ⟨h1, h2⟩ := ih (dividerResolveAt p sw sqrtO ball i)
    obtain ⟨h3, h4⟩ := dividerResolveAt_tags p sw sqrtO ball i
    exact ⟨h1.trans h3, h2.trans h4⟩

theorem dividersFold_tags (p : PhysicsSettings) (ns : ℕ) (sw : ℚ)
    (sqrtO : ℚ → ℚ) (ball : Ball) :
    (dividersFold p ns sw sqrtO ball).landed = ball.landed ∧
    (dividersFold p ns sw sqrtO ball).landedSlot = ball.landedSlot := by
  simp only [dividersFold]
  split_ifs
  · exact ⟨rfl, rfl⟩
  · exact dividersFoldLoop_tags p sw sqrtO (List.range (ns + 1)) ball

end Plinko

namespace Plinko

theorem pegsFold_tags2 (p : PhysicsSettings) (pegs : List Peg) (sqrtO : ℚ → ℚ)
    (rand : ℕ → ℚ) (ball : Ball) (k : ℕ) :
    (pegsFold p pegs sqrtO rand ball k).1.landed = ball.landed ∧
    (pegsFold p pegs sqrtO rand ball k).1.landedSlot = ball.landedSlot :=
  pegsFold_tags p sqrtO rand pegs (ball, k)

theorem advanceBall_ok (p : PhysicsSettings) (pegs : List Peg) (n : ℕ)
    (rand : ℕ → ℚ) (sqrtO : ℚ → ℚ) (ox dir : ℚ) (b : Ball) (k : ℕ)
    (hb : BallOK (numSlots n) b) :
    BallOK (numSlots n) (advanceBall p pegs n rand sqrtO ox dir b k).1 := by
  by_cases hl : b.landed = true
  · simpa [advanceBall, hl] using hb
  · have hlf : b.landed = false := by simpa using hl
    have hland : (dividersFold p (numSlots n) (slotWidthOf n) sqrtO
        (obstacleResolve p ox dir
          (pegsFold p pegs sqrtO rand
            (wallResolve p (canvasWidth n) (moveBall p b)) k).1)).landed = false := by
      rw [(dividersFold_tags p (numSlots n) (slotWidthOf n) sqrtO _).1,
        (obstacleResolve_tags p ox dir _).1,
        (pegsFold_tags2 p pegs sqrtO rand _ k).1,
        (wallResolve_tags p (canvasWidth n) _).1,
        (moveBall_tags p b).1, hlf]
    simp only [advanceBall, hlf, Bool.false_eq_true, if_false]
    split_ifs with hc hd
    · -- floor contact, still bouncing: ball stays unlanded
      intro hcontra
      simp only [hland] at hcontra
      cases hcontra
    · -- floor contact, landing: slot assigned by landSlot, in range
      intro _
      exact ⟨(landSlot n _).toNat, rfl, landSlot_toNat_lt n _⟩
    · -- no floor contact: ball stays unlanded
      intro hcontra
      simp only [hland] at hcontra
      cases hcontra

theorem advanceBalls_length (p : PhysicsSettings) (pegs : List Peg) (n : ℕ)
    (rand : ℕ → ℚ) (sqrtO : ℚ → ℚ) (ox dir : ℚ) :
    ∀ (bs : List Ball) (k : ℕ),
      (advanceBalls p pegs n rand sqrtO ox dir bs k).1.length = bs.length := by
  intro bs
  induction bs with
  | nil => intro k; rfl
  | cons b rest ih =>
    intro k
    simp only [advanceBalls, List.length_cons]
    rw [ih]

theorem advanceBalls_ok (p : PhysicsSettings) (pegs : List Peg) (n : ℕ)
    (rand : ℕ → ℚ) (sqrtO : ℚ → ℚ) (ox dir : ℚ) :
    ∀ (bs : List Ball) (k : ℕ), (∀ b ∈ bs, BallOK (numSlots n) b) →
      ∀ b2 ∈ (advanceBalls p pegs n rand sqrtO ox dir bs k).1, BallOK (numSlots n) b2 := by
  intro bs
  induction bs with
  | nil => intro k _ b2 h2; cases h2
  | cons b rest ih =>
    intro k hall b2 h2
    simp only [advanceBalls, List.mem_cons] at h2
    rcases h2 with h2 | h2
    · subst h2
      exact advanceBall_ok p pegs n rand sqrtO ox dir b k (hall b (List.mem_cons_self b rest))
    · exact ih _ (fun x hx => hall x (List.mem_cons_of_mem b hx)) b2 h2

theorem forceLandAll_length (n : ℕ) (bs : List Ball) :
    (forceLandAll n bs).length = bs.length := by
  simp [forceLandAll]

theorem forceLandAll_ok (n : ℕ) (bs : List Ball)
    (hall : ∀ b ∈ bs, BallOK (numSlots n) b) :
    ∀ b2 ∈ forceLandAll n bs, BallOK (numSlots n) b2 := by
  intro b2 h2
  simp only [forceLandAll, List.mem_map] at h2
  obtain ⟨b, hb, heq⟩ := h2
  by_cases hl : b.landed = true
  · rw [← heq]
    simpa [hl] using hall b hb
  · have hlf : b.landed = false := by simpa using hl
    rw [← heq]
    simp only [hlf, Bool.false_eq_true, if_false]
    intro _
    exact ⟨(landSlot n b.x).toNat, rfl, landSlot_toNat_lt n b.x⟩

end Plinko

namespace Plinko

theorem sum_set_getD : ∀ (l : List ℕ) (m : ℕ), m < l.length →
    (l.set m (l.getD m 0 + 1)).sum = l.sum + 1 := by
  intro l
  induction l with
  | nil => intro m hm; cases hm
  | cons a t ih =>
    intro m hm
    cases m with
    | zero => simp [List.sum_cons]; omega
    | succ m =>
      show (a :: t.set m (t.getD m 0 + 1)).sum = (a :: t).sum + 1
      simp only [List.sum_cons]
      rw [ih m (by simpa using hm)]
      omega

theorem tally_aux_length (ns : ℕ) :
    ∀ (balls : List Ball) (acc : List ℕ),
      (balls.foldl (fun acc b =>
        match b.landedSlot with
        | some m => if m < ns then acc.set m (acc.getD m 0 + 1) else acc
        | none => acc) acc).length = acc.length := by
  intro balls
  induction balls with
  | nil => intro acc; rfl
  | cons b rest ih =>
    intro acc
    rw [List.foldl_cons, ih]
    cases b.landedSlot with
    | none => rfl
    | some m =>
      simp only []
      split_ifs <;> simp [List.length_set]

theorem tally_length (ns : ℕ) (balls : List Ball) :
    (tally ns balls).length = ns := by
  simp only [tally]
  rw [tally_aux_length]
  exact List.length_replicate ns 0

theorem tally_aux_sum (ns : ℕ) :
    ∀ (balls : List Ball) (acc : List ℕ), acc.length = ns →
      (∀ b ∈ balls, b.landed = true) → (∀ b ∈ balls, BallOK ns b) →
      (balls.foldl (fun acc b =>
        match b.landedSlot with
        | some m => if m < ns then acc.set m (acc.getD m 0 + 1) else acc
        | none => acc) acc).sum = acc.sum + balls.length := by
  intro balls
  induction balls with
  | nil => intro acc _ _ _; simp
  | cons b rest ih =>
    intro acc hlen hland hok
    obtain ⟨m, hm, hmlt⟩ := hok b (List.mem_cons_self b rest)
      (hland b (List.mem_cons_self b rest))
    rw [List.foldl_cons]
    simp only [hm]
    rw [if_pos hmlt]
    rw [ih _ (by simp [List.length_set, hlen])
      (fun x hx => hland x (List.mem_cons_of_mem b hx))
      (fun x hx => hok x (List.mem_cons_of_mem b hx))]
    rw [sum_set_getD acc m (by omega)]
    simp [List.length_cons]
    omega

theorem tally_sum (ns : ℕ) (balls : List Ball)
    (hland : ∀ b ∈ balls, b.landed = true) (hok : ∀ b ∈ balls, BallOK ns b) :
    (tally ns balls).sum = balls.length := by
  simp only [tally]
  rw [tally_aux_sum ns balls (List.replicate ns 0)
    (List.length_replicate ns 0) hland hok]
  simp

end Plinko

namespace Plinko

/-- Invariant of a batch run with `k` balls over `n` display entries:
the ball count is preserved, every landed ball holds an in-range slot,
and any emitted result list has length `numSlots` and sum `k`. -/
def BatchInvariant (n k : ℕ) (s : BatchState) : Prop :=
  s.balls.length = k ∧ (∀ b ∈ s.balls, BallOK (numSlots n) b) ∧
  ∀ res, s.status = BatchStatus.done res → res.length = numSlots n ∧ res.sum = k

theorem batchTick_inv (p : PhysicsSettings) (pegs : List Peg) (n : ℕ)
    (times rand : ℕ → ℚ) (sqrtO : ℚ → ℚ) (k : ℕ) (s : BatchState)
    (h : BatchInvariant n k s) :
    BatchInvariant n k (batchTick p pegs n times rand sqrtO s) := by
  obtain ⟨hlen, hok, hdone⟩ := h
  cases hst : s.status with
  | done res =>
    simp only [batchTick, hst]
    exact ⟨hlen, hok, hdone⟩
  | running =>
    simp only [batchTick, hst]
    set L1 := (if times s.tickCount - s.startTime > 20000 then
        forceLandAll n s.balls else s.balls) with hL1
    have hlen1 : L1.length = k := by
      rw [hL1]; split_ifs <;> simp [forceLandAll_length, hlen]
    have hok1 : ∀ b ∈ L1, BallOK (numSlots n) b := by
      rw [hL1]; split_ifs
      · exact forceLandAll_ok n s.balls hok
      · exact hok
    set pr2 := advanceBalls p pegs n rand sqrtO s.obstacleX s.obstacleDir L1 s.rng
      with hpr2
    have hlen2 : pr2.1.length = k := by
      rw [hpr2, advanceBalls_length]; exact hlen1
    have hok2 : ∀ b ∈ pr2.1, BallOK (numSlots n) b := by
      rw [hpr2]
      exact advanceBalls_ok p pegs n rand sqrtO s.obstacleX s.obstacleDir L1 s.rng hok1
    split_ifs with hall
    · refine ⟨hlen2, hok2, ?_⟩
      intro res hres
      simp only [BatchStatus.done.injEq] at hres
      have hland : ∀ b ∈ pr2.1, b.landed = true := by
        intro b hb
        simpa using List.all_eq_true.1 hall b hb
      rw [← hres]
      constructor
      · exact tally_length (numSlots n) _
      · rw [tally_sum _ _ hland hok2]
        exact hlen2
    · exact ⟨hlen2, hok2, fun res hres => by cases hres⟩

theorem runBatch_inv (p : PhysicsSettings) (pegs : List Peg) (n : ℕ)
    (times rand : ℕ → ℚ) (sqrtO : ℚ → ℚ) (k : ℕ) :
    ∀ (fuel : ℕ) (s : BatchState), BatchInvariant n k s →
      BatchInvariant n k (runBatch p pegs n times rand sqrtO fuel s) := by
  intro fuel
  induction fuel with
  | zero => intro s h; exact h
  | succ m ih =>
    intro s h
    exact ih _ (batchTick_inv p pegs n times rand sqrtO k s h)

theorem listSwap_length (l : List Ball) (i j : ℕ) :
    (listSwap l i j).length = l.length := by
  simp only [listSwap]
  cases l.get? i <;> cases l.get? j <;> simp [List.length_set]

theorem listSwap_mem (l : List Ball) (i j : ℕ) :
    ∀ b ∈ listSwap l i j, b ∈ l := by
  intro b hb
  simp only [listSwap] at hb
  cases hi : l.get? i with
  | none => rw [hi] at hb; exact hb
  | some a =>
    cases hj : l.get? j with
    | none => rw [hi, hj] at hb; exact hb
    | some c =>
      rw [hi, hj] at hb
      rcases List.mem_or_eq_of_mem_set hb with hb2 | hb2
      · rcases List.mem_or_eq_of_mem_set hb2 with hb3 | hb3
        · exact hb3
        · subst hb3
          exact List.get?_mem hj
      · subst hb2
        exact List.get?_mem hi

theorem fisherYates_length (rand : ℕ → ℚ) :
    ∀ (m k : ℕ) (l : List Ball), (fisherYates rand k m l).length = l.length := by
  intro m
  induction m with
  | zero => intro k l; rfl
  | succ i ih =>
    intro k l
    simp only [fisherYates]
    rw [ih]
    exact listSwap_length l (i + 1) _

theorem fisherYates_mem (rand : ℕ → ℚ) :
    ∀ (m k : ℕ) (l : List Ball) (b : Ball), b ∈ fisherYates rand k m l → b ∈ l := by
  intro m
  induction m with
  | zero => intro k l b hb; exact hb
  | succ i ih =>
    intro k l b hb
    simp only [fisherYates] at hb
    exact listSwap_mem l (i + 1) _ b (ih _ _ b hb)

theorem startTest_length (p : PhysicsSettings) (entryCount : ℕ) (rand : ℕ → ℚ)
    (t0 : ℚ) (ballCount : ℕ) :
    (startTest p entryCount rand t0 ballCount).balls.length = ballCount := by
  simp only [startTest]
  rw [fisherYates_length]
  simp

theorem startTest_unlanded (p : PhysicsSettings) (entryCount : ℕ) (rand : ℕ → ℚ)
    (t0 : ℚ) (ballCount : ℕ) :
    ∀ b ∈ (startTest p entryCount rand t0 ballCount).balls, b.landed = false := by
  intro b hb
  simp only [startTest] at hb
  have hmem := fisherYates_mem rand (ballCount - 1) (4 * ballCount) _ b hb
  simp only [List.mem_map] at hmem
  obtain ⟨i, _, heq⟩ := hmem
  rw [← heq]
  rfl

/-- C5: whenever the batch run started by `startTestAnimation` for
`ballCount ≥ 1` balls emits its `DistributionResult` (which happens once
every ball has landed, normally or through the 20-second global
stuck-timeout force-landing), the emitted list has length `numSlots` and
its entries sum to exactly `ballCount`. -/
theorem batch_results_sum (p : PhysicsSettings) (pegs : List Peg)
    (entryCount : ℕ) (times rand : ℕ → ℚ) (sqrtO : ℚ → ℚ) (t0 : ℚ)
    (ballCount fuel : ℕ) (res : List ℕ)
    (_hbc : 1 ≤ ballCount)
    (hdone : (runBatch p pegs entryCount times rand sqrtO fuel
        (startTest p entryCount rand t0 ballCount)).status = BatchStatus.done res) :
    res.length = numSlots entryCount ∧ res.sum = ballCount := by
  have hinv0 : BatchInvariant entryCount ballCount
      (startTest p entryCount rand t0 ballCount) := by
    refine ⟨startTest_length p entryCount rand t0 ballCount, ?_, ?_⟩
    · intro b hb hcontra
      rw [startTest_unlanded p entryCount rand t0 ballCount b hb] at hcontra
      cases hcontra
    · intro r hr
      cases hr
  have hinv := runBatch_inv p pegs entryCount times rand sqrtO ballCount fuel
    (startTest p entryCount rand t0 ballCount) hinv0
  exact hinv.2.2 res hdone

end Plinko

namespace Plinko

/-- C10: starting a batch distribution test performs no minimum-entry
check: for every display-entry count, including 0, `startTestAnimation`
creates its `ballCount` balls and enters the running state, with
`numSlots` clamped below to 2; the single-drop start by contrast refuses
lists shorter than 2, and the only guard on the batch path is the
caller-side UI `disabled` flag of the distribution-test button. -/
theorem batch_start_unguarded (p : PhysicsSettings) (rand : ℕ → ℚ) (t0 : ℚ)
    (ballCount : ℕ) :
    (∀ entryCount, (startTest p entryCount rand t0 ballCount).balls.length = ballCount ∧
      (startTest p entryCount rand t0 ballCount).status = BatchStatus.running) ∧
    numSlots 0 = 2 ∧
    (∀ entries : List Entry, entries.length < 2 →
      startSingle p entries rand t0 = none) ∧
    (∀ isPlaying entryCount, entryCount < 2 →
      testButtonDisabled isPlaying entryCount = true) := by
  refine ⟨fun n => ⟨startTest_length p n rand t0 ballCount, rfl⟩, rfl, ?_, ?_⟩
  · intro entries h
    simp [startSingle, h]
  · intro ip n h
    simp [testButtonDisabled, h]

end Plinko

namespace Plinko

attribute [local semireducible] Rat.add Rat.mul Rat.sub Rat.inv Rat.ofScientific in
set_option maxRecDepth 100000 in
/-- Witness for C2: a concrete 10-entry list where the landing lookup at
x = 100 is defined and lands inside the displayed prefix, and a concrete
empty list where the clamped slot index (1) reaches past the end, the
lookup is `none`, and the landing update reports no winner. -/
theorem winner_lookup_safe_witness :
    (∃ e, ceEntries.get? (landSlot ceEntries.length 100).toNat = some e ∧
      e ∈ ceEntries.take (numSlots ceEntries.length) ∧
      (recordSlot ceEntries (landSlot ceEntries.length 100) ceState0).winner = some e) ∧
    (([] : List Entry).get? (landSlot 0 10000).toNat = none ∧
      (recordSlot ([] : List Entry) (landSlot 0 10000) ceState0).winner =
        ceState0.winner) :=
  ⟨(winner_lookup_safe ceEntries 100 ceState0).1 (by decide),
   (winner_lookup_safe ([] : List Entry) 10000 ceState0).2 (by decide)⟩

attribute [local semireducible] Rat.add Rat.mul Rat.sub Rat.inv Rat.ofScientific in
set_option maxRecDepth 1000000 in
/-- Witness for the amended C3: in the concrete run of the counterexample
the last highlighted slot is 0 and the reported winner is indeed the
display entry of slot 0. -/
theorem winner_matches_last_highlight_witness :
    (runSingle ceP (generatePegs (canvasWidth ceEntries.length)) ceEntries ceTimes
      ceRand (fun _ => 0) 100 ceStart).winner = ceEntries.get? ((0 : ℤ)).toNat :=
  winner_matches_last_highlight ceP (generatePegs (canvasWidth ceEntries.length))
    ceEntries ceTimes ceRand (fun _ => 0) 0 100 ceStart (by decide) (by decide) 0
    (by decide)

attribute [local semireducible] Rat.add Rat.mul Rat.sub Rat.inv Rat.ofScientific in
set_option maxRecDepth 100000 in
/-- Witness for C4: with a frame clock that reaches 30000 ms on tick 1,
the concrete drop has landed after 2 ticks. -/
theorem single_drop_terminates_witness :
    (runSingle ceP [] ceEntries ceTimesFast ceRand (fun _ => 0) 2 ceStart).status =
      SimStatus.landed :=
  (single_drop_terminates ceP [] ceEntries ceTimesFast ceRand (fun _ => 0) 0 1 ceStart
    (by decide) (by decide)).1

attribute [local semireducible] Rat.add Rat.mul Rat.sub Rat.inv Rat.ofScientific in
set_option maxRecDepth 100000 in
/-- Witness for C5: a concrete one-ball batch over two entries is
force-landed by the stuck timeout on tick 1 and emits `[1, 0]`, of length
`numSlots 2 = 2` and sum 1. -/
theorem batch_results_sum_witness :
    (runBatch ceP [] 2 ceTimesFast (fun _ => 0) (fun _ => 0) 2
      (startTest ceP 2 (fun _ => 0) 0 1)).status = BatchStatus.done [1, 0] ∧
    ([1, 0] : List ℕ).length = numSlots 2 ∧ ([1, 0] : List ℕ).sum = 1 := by
  have hdone : (runBatch ceP [] 2 ceTimesFast (fun _ => 0) (fun _ => 0) 2
      (startTest ceP 2 (fun _ => 0) 0 1)).status = BatchStatus.done [1, 0] := by decide
  exact ⟨hdone, batch_results_sum ceP [] 2 ceTimesFast (fun _ => 0) (fun _ => 0) 0 1 2
    [1, 0] (by decide) hdone⟩

/-- Witness for the amended C6: the four damping bounds instantiated at
concrete balls with the default settings. -/
theorem collision_damping_witness :
    speedSq (wallResolve DEFAULT_PHYSICS 750 { x := 320, y := 700, vx := 0, vy := 1 / 2 }) ≤
      speedSq { x := 320, y := 700, vx := 0, vy := 1 / 2 : Ball } ∧
    speedSq (dividerResolveAt DEFAULT_PHYSICS 75 (fun _ => 0)
        { x := 320, y := 700, vx := 0, vy := 1 / 2 } 0) ≤
      speedSq { x := 320, y := 700, vx := 0, vy := 1 / 2 : Ball } ∧
    speedSq (pegResolve DEFAULT_PHYSICS { x := 0, y := 0 }
        { x := 3, y := 4, vx := 1, vy := 2 } 5 (1 / 2)) ≤
      speedSq { x := 3, y := 4, vx := 1, vy := 2 : Ball } ∧
    speedSq (obstacleResolve DEFAULT_PHYSICS 300 0 { x := 320, y := 700, vx := 0, vy := 1 / 2 }) ≤
      speedSq { x := 320, y := 700, vx := 0, vy := 1 / 2 : Ball } := by
  have h := collision_damping DEFAULT_PHYSICS (by norm_num [DEFAULT_PHYSICS])
    (by norm_num [DEFAULT_PHYSICS])
  refine ⟨h.1 750 _, h.2.1 75 (fun _ => 0) _ 0, ?_, h.2.2.2 300 _⟩
  refine h.2.2.1 { x := 0, y := 0 } { x := 3, y := 4, vx := 1, vy := 2 } 5
    (by norm_num) ?_
  show (5 : ℚ) ^ 2 = ((3 : ℚ) - 0) ^ 2 + ((4 : ℚ) - 0) ^ 2
  norm_num

/-- Witness for C7: a one-entry list is refused, and the whole pipeline
yields no run state. -/
theorem insufficient_entries_refused_witness :
    startSingle ceP [⟨"1", "A"⟩] ceRand 0 = none ∧
    singleDrop ceP [⟨"1", "A"⟩] ceTimes ceRand (fun _ => 0) 0 5 = none :=
  insufficient_entries_refused ceP [⟨"1", "A"⟩] ceTimes ceRand (fun _ => 0) 0 5
    (by decide)

/-- Witness for C8: with the zero-width obstacle of `ceP` the resolver
fixes a concrete ball, and a 3-tick run equals the obstacle-skipping run. -/
theorem obstacle_width_zero_witness :
    obstacleResolve ceP 345 1 { x := 320, y := 700, vx := 0, vy := 1 / 2 } =
      { x := 320, y := 700, vx := 0, vy := 1 / 2 : Ball } ∧
    runSingle ceP [] ceEntries ceTimes ceRand (fun _ => 0) 3 ceStart =
      runSingleNoObstacle ceP [] ceEntries ceTimes ceRand (fun _ => 0) 3 ceStart := by
  have h := obstacle_width_zero_skips_resolver ceP (by rfl)
  exact ⟨h.1 345 1 _, h.2.2 [] ceEntries ceTimes ceRand (fun _ => 0) 3 ceStart⟩

/-- Witness for C9: the peg resolution equations at a concrete overlap
(ball at (3,4), peg at the origin, distance 5 below the combined radius
12, midpoint random draw). -/
theorem peg_collision_resolution_witness :
    let ball : Ball := { x := 3, y := 4, vx := 1, vy := 2 }
    let peg : Peg := { x := 0, y := 0 }
    let nx := (ball.x - peg.x) / 5
    let ny := (ball.y - peg.y) / 5
    let dotProduct := ball.vx * nx + ball.vy * ny
    let u := ((1 : ℚ) / 2 - 1 / 2) * DEFAULT_PHYSICS.pegRandomness
    nx ^ 2 + ny ^ 2 = 1 ∧
    (pegResolve DEFAULT_PHYSICS peg ball 5 (1 / 2)).vx =
      (ball.vx - 2 * dotProduct * nx) * DEFAULT_PHYSICS.bounce + u ∧
    (pegResolve DEFAULT_PHYSICS peg ball 5 (1 / 2)).vy =
      (ball.vy - 2 * dotProduct * ny) * DEFAULT_PHYSICS.bounce ∧
    (pegResolve DEFAULT_PHYSICS peg ball 5 (1 / 2)).x =
      ball.x + nx * (DEFAULT_PHYSICS.ballRadius + DEFAULT_PHYSICS.pegRadius - 5) ∧
    (pegResolve DEFAULT_PHYSICS peg ball 5 (1 / 2)).y =
      ball.y + ny * (DEFAULT_PHYSICS.ballRadius + DEFAULT_PHYSICS.pegRadius - 5) ∧
    -(DEFAULT_PHYSICS.pegRandomness / 2) ≤ u ∧ u ≤ DEFAULT_PHYSICS.pegRandomness / 2 := by
  intro ball peg nx ny dotProduct u
  refine peg_collision_resolution DEFAULT_PHYSICS peg ball 5 (1 / 2) (by norm_num) ?_
    ?_ (by norm_num) (by norm_num) (by norm_num [DEFAULT_PHYSICS])
  · show (5 : ℚ) ^ 2 = ((3 : ℚ) - 0) ^ 2 + ((4 : ℚ) - 0) ^ 2
    norm_num
  · show (5 : ℚ) < DEFAULT_PHYSICS.ballRadius + DEFAULT_PHYSICS.pegRadius
    norm_num [DEFAULT_PHYSICS]

/-- Witness for C10: a 7-ball batch start over an empty display list
creates all 7 balls and runs, `numSlots` is clamped to 2, the single-drop
start refuses the empty list, and the UI button guard is active. -/
theorem batch_start_unguarded_witness :
    ((startTest DEFAULT_PHYSICS 0 (fun _ => 0) 0 7).balls.length = 7 ∧
      (startTest DEFAULT_PHYSICS 0 (fun _ => 0) 0 7).status = BatchStatus.running) ∧
    numSlots 0 = 2 ∧
    startSingle DEFAULT_PHYSICS ([] : List Entry) (fun _ => 0) 0 = none ∧
    testButtonDisabled false 0 = true := by
  have h := batch_start_unguarded DEFAULT_PHYSICS (fun _ => 0) 0 7
  exact ⟨h.1 0, h.2.1, h.2.2.1 [] (by decide), h.2.2.2 false 0 (by decide)⟩

end Plinko

namespace Plinko

/-- Witness for C1: concrete instantiation at 10 entries and x = 100. -/
theorem slot_index_in_range_witness :
    0 ≤ landSlot 10 100 ∧ landSlot 10 100 ≤ (numSlots 10 : ℤ) - 1 :=
  ⟨(slot_index_in_range 10 100).2.1, (slot_index_in_range 10 100).2.2⟩

end Plinko
